import Mathlib

/-!
Verification development for the freelancer auto-bid repository.

The TypeScript sources are shallowly embedded: JavaScript numbers are
modelled as rationals, Math.round as jsRound (round half toward positive
infinity), NaN as Option.none where it can arise, and the specific regular
expressions used by the scraper as deterministic character-list matchers
(each regex used by the code allows no observable backtracking, as argued
in the doc comments of the matchers).  DOM access and network calls are not
embeddable; functions that mix DOM reads with logic are modelled by passing
the already-extracted text or values in as arguments, mirroring the source
line by line from that point on.
-/

/-- JavaScript Math.round: rounds half toward positive infinity
(Math.round of 2.5 is 3, Math.round of -2.5 is -2). -/
def jsRound (q : ℚ) : ℤ := ⌊q + 1/2⌋

/-- String.prototype.toUpperCase on the character level (the scraped
currency codes are ASCII). -/
def jsToUpper (s : String) : String := String.mk (s.data.map Char.toUpper)

/-- String.prototype.toLowerCase on the character level. -/
def jsToLower (s : String) : String := String.mk (s.data.map Char.toLower)

/-- Exchange-rate table USD_EXCHANGE_RATES from src/scraper.ts lines 5-14. -/
def USD_EXCHANGE_RATES (currency : String) : Option ℚ :=
  if currency = "USD" then some 1
  else if currency = "EUR" then some (110/100)
  else if currency = "GBP" then some (127/100)
  else if currency = "INR" then some (12/1000)
  else if currency = "AUD" then some (64/100)
  else if currency = "CAD" then some (74/100)
  else if currency = "SGD" then some (74/100)
  else if currency = "THB" then some (29/1000)
  else none

/-- convertToUSD from src/scraper.ts lines 19-22: unknown code defaults to
rate 1 (all table entries are nonzero, so the JavaScript fallback only
fires on a missing key). -/
def convertToUSD (amount : ℚ) (currency : String) : ℚ :=
  let rate := (USD_EXCHANGE_RATES (jsToUpper currency)).getD 1
  (jsRound (amount * rate) : ℚ)

/-- detectCurrency from src/scraper.ts lines 27-39.  The multi-character
keys ("A$", "C$", "S$") are kept for fidelity although the callers only
pass single characters or "$". -/
def detectCurrency (symbol : String) : String :=
  if symbol = "$" then "USD"
  else if symbol = "€" then "EUR"
  else if symbol = "£" then "GBP"
  else if symbol = "₹" then "INR"
  else if symbol = "A$" then "AUD"
  else if symbol = "C$" then "CAD"
  else if symbol = "S$" then "SGD"
  else if symbol = "฿" then "THB"
  else "USD"

/-- Character class [\$₹€£] used by the currency regexes of the scraper. -/
def isCurrencySymbol (c : Char) : Bool :=
  c = '$' || c = '₹' || c = '€' || c = '£'

/-- Character class [\d,]. -/
def isDigitOrComma (c : Char) : Bool := c.isDigit || c = ','

/-- JavaScript \s (restricted to the whitespace characters that occur in
scraped text). -/
def isSpaceChar (c : Char) : Bool :=
  c = ' ' || c = '\t' || c = '\n' || c = '\r'

/-- JavaScript \w, that is [A-Za-z0-9_]. -/
def isWordChar (c : Char) : Bool := c.isAlphanum || c = '_'

/-- Value of a digit string (most significant first). -/
def digitsToNat (ds : List Char) : ℕ :=
  ds.foldl (fun n c => 10 * n + (c.toNat - '0'.toNat)) 0

/-- Decomposition of a comma-stripped numeral captured by the scraper
regexes (digits, optionally followed by a dot and digits) into integer
part, fractional part and fractional length.  None encodes NaN, the
Number.parseFloat result on a string with no digits (reachable because
the class [\d,]+ also matches bare commas). -/
def jsParseFloatParts (cs : List Char) : Option (ℕ × ℕ × ℕ) :=
  let intDs := cs.takeWhile Char.isDigit
  let rest := cs.dropWhile Char.isDigit
  match rest with
  | '.' :: frac =>
      if intDs.isEmpty && frac.isEmpty then none
      else some (digitsToNat intDs, digitsToNat frac, frac.length)
  | _ => if intDs.isEmpty then none else some (digitsToNat intDs, 0, 0)

/-- Number.parseFloat applied to a comma-stripped numeral captured by the
scraper regexes. -/
def jsParseFloat (cs : List Char) : Option ℚ :=
  (jsParseFloatParts cs).map (fun p => (p.1 : ℚ) + (p.2.1 : ℚ) / 10 ^ p.2.2)

/-- Number.parseInt applied to a comma-stripped numeral captured by the
scraper regexes.  None encodes NaN (no leading digit). -/
def jsParseInt (cs : List Char) : Option ℕ :=
  let ds := cs.takeWhile Char.isDigit
  if ds.isEmpty then none else some (digitsToNat ds)

/-- Captures of the regex ([\$₹€£])?([\d,]+(?:\.\d+)?)\s*(\w+)? of
parseCurrencyAmount (src/scraper.ts line 45). -/
structure CurrencyMatch where
  symbol : Option Char
  numeral : List Char
  code : Option (List Char)
deriving DecidableEq

/-- Attempt a match of the parseCurrencyAmount regex anchored at the head
of cs.  The regex is deterministic here: skipping an available symbol
cannot help (the next atom [\d,]+ rejects a symbol), shortening the greedy
[\d,]+ cannot help (the characters given back are digits or commas, which
the following dot test and the always-succeeding tail \s*(\w+)? treat no
better), and the optional decimal part and trailing word are decided by a
one-character test.  So greedy maximal munch reproduces the result of the
JavaScript engine exactly. -/
def matchCurrencyAt (cs : List Char) : Option CurrencyMatch :=
  let symStep : Option Char × List Char :=
    match cs with
    | c :: rest => if isCurrencySymbol c then (some c, rest) else (none, cs)
    | [] => (none, [])
  let intPart := symStep.2.takeWhile isDigitOrComma
  let cs2 := symStep.2.dropWhile isDigitOrComma
  if intPart.isEmpty then none
  else
    let decStep : List Char × List Char :=
      match cs2 with
      | '.' :: rest =>
          let ds := rest.takeWhile Char.isDigit
          if ds.isEmpty then ([], cs2)
          else ('.' :: ds, rest.dropWhile Char.isDigit)
      | _ => ([], cs2)
    let cs4 := decStep.2.dropWhile isSpaceChar
    let w := cs4.takeWhile isWordChar
    some { symbol := symStep.1
           numeral := intPart ++ decStep.1
           code := if w.isEmpty then none else some w }

/-- String.prototype.match semantics: scan start positions left to right,
first success wins. -/
def findCurrencyMatch : List Char → Option CurrencyMatch
  | [] => none
  | c :: rest =>
    match matchCurrencyAt (c :: rest) with
    | some m => some m
    | none => findCurrencyMatch rest

/-- Result record of parseCurrencyAmount; amount none encodes NaN. -/
structure ParsedAmount where
  amount : Option ℚ
  currency : String
deriving DecidableEq

/-- parseCurrencyAmount from src/scraper.ts lines 44-53. -/
def parseCurrencyAmount (text : String) : ParsedAmount :=
  match findCurrencyMatch text.data with
  | some m =>
      let symbol := (m.symbol.map Char.toString).getD "$"
      let amount := jsParseFloat (m.numeral.filter (fun c => c ≠ ','))
      let currency :=
        match m.code with
        | some w => jsToUpper (String.mk w)
        | none => detectCurrency symbol
      ⟨amount, currency⟩
  | none => ⟨some 0, "USD"⟩

/-- Captures of the budget regex
([\$₹€£])?([\d,]+)\s*[–-]\s*([\$₹€£]?)?([\d,]+)\s*(\w+)? of
convertRawProjects (src/scraper.ts line 161).  sym2 is none both when the
doubly-optional inner group is absent and when it matches the empty string;
the caller treats both as falsy. -/
structure BudgetMatch where
  sym1 : Option Char
  num1 : List Char
  sym2 : Option Char
  num2 : List Char
  code : Option (List Char)
deriving DecidableEq

/-- Attempt a match of the budget regex anchored at the head of cs.
Deterministic for the same reasons as matchCurrencyAt: every greedy piece
is followed by an atom that rejects exactly the characters the piece could
give back (digits and commas are neither whitespace nor dashes, symbols are
not digits), and the tail \s*(\w+)? always succeeds, so maximal munch is
exact. -/
def matchBudgetAt (cs : List Char) : Option BudgetMatch :=
  let symStep : Option Char × List Char :=
    match cs with
    | c :: rest => if isCurrencySymbol c then (some c, rest) else (none, cs)
    | [] => (none, [])
  let num1 := symStep.2.takeWhile isDigitOrComma
  let cs2 := symStep.2.dropWhile isDigitOrComma
  if num1.isEmpty then none
  else
    match cs2.dropWhile isSpaceChar with
    | [] => none
    | c :: cs3 =>
      if c = '–' || c = '-' then
        let cs3d := cs3.dropWhile isSpaceChar
        let symStep2 : Option Char × List Char :=
          match cs3d with
          | d :: rest => if isCurrencySymbol d then (some d, rest) else (none, cs3d)
          | [] => (none, [])
        let num2 := symStep2.2.takeWhile isDigitOrComma
        let cs5 := symStep2.2.dropWhile isDigitOrComma
        if num2.isEmpty then none
        else
          let cs6 := cs5.dropWhile isSpaceChar
          let w := cs6.takeWhile isWordChar
          some { sym1 := symStep.1, num1 := num1, sym2 := symStep2.1, num2 := num2
                 code := if w.isEmpty then none else some w }
      else none

/-- Scan start positions left to right, first success wins. -/
def findBudgetMatch : List Char → Option BudgetMatch
  | [] => none
  | c :: rest =>
    match matchBudgetAt (c :: rest) with
    | some m => some m
    | none => findBudgetMatch rest

/-- String.prototype.includes for character lists. -/
def containsSubstring (pat : List Char) : List Char → Bool
  | [] => pat.isEmpty
  | c :: rest => pat.isPrefixOf (c :: rest) || containsSubstring pat rest

/-- Budget record of a Project (types.ts lines 10-17).  Budget values are
none when NaN; minUSD and maxUSD fold the optional TypeScript field and NaN
into one Option. -/
structure Budget where
  min : Option ℚ
  max : Option ℚ
  currency : String
  minUSD : Option ℚ
  maxUSD : Option ℚ
  isHourly : Bool
deriving DecidableEq

/-- NaN-aware convertToUSD used when a parsed budget bound flows into the
conversion (Math.round of NaN is NaN). -/
def convertToUSDn (amount : Option ℚ) (currency : String) : Option ℚ :=
  amount.map (fun a => convertToUSD a currency)

/-- Budget-conversion logic of convertRawProjects
(src/scraper.ts lines 160-196): parse the raw budget text with the budget
regex, strip commas, Number.parseInt both bounds, pick the currency from
the trailing code or from the first available symbol (defaulting to "$"),
convert both bounds to USD, and detect an hourly budget by searching for
"per hour" in the lowercased text.  No match leaves every number 0 and the
currency "USD". -/
def convertRawBudget (budgetText : String) : Budget :=
  let isHourly := containsSubstring ("per hour".data) (jsToLower budgetText).data
  match findBudgetMatch budgetText.data with
  | some m =>
    let symbol : String :=
      match m.sym1 with
      | some c => Char.toString c
      | none =>
        match m.sym2 with
        | some c => Char.toString c
        | none => "$"
    let minB := jsParseInt (m.num1.filter (fun c => c ≠ ','))
    let maxB := jsParseInt (m.num2.filter (fun c => c ≠ ','))
    let currency : String :=
      match m.code with
      | some w => jsToUpper (String.mk w)
      | none => detectCurrency symbol
    { min := minB.map (fun n : ℕ => (n : ℚ)), max := maxB.map (fun n : ℕ => (n : ℚ))
      currency := currency
      minUSD := convertToUSDn (minB.map (fun n : ℕ => (n : ℚ))) currency
      maxUSD := convertToUSDn (maxB.map (fun n : ℕ => (n : ℚ))) currency
      isHourly := isHourly }
  | none =>
    { min := some 0, max := some 0, currency := "USD"
      minUSD := some 0, maxUSD := some 0, isHourly := isHourly }

/-- RawProject record produced by the in-page extraction
(src/scraper.ts lines 56-66). -/
structure RawProject where
  id : String
  title : String
  description : String
  budgetText : String
  skills : List String
  bidsCount : ℕ
  clientRating : ℚ
  timePosted : String
  url : String
deriving DecidableEq

/-- One candidate listing card, holding the values the in-page DOM queries
of scrapeProjectsFromPage (src/scraper.ts lines 96-130) extract for it:
idMatch is the capture of the URL regex \/projects\/[^/]+\/([^/]+) (none
when that regex fails), titleText and descText are the trimmed title and
the trimmed description with a trailing "more" stripped, skills is the
de-duplicated tag list, bidsCount and clientRating the parsed numbers with
their 0 defaults.  The loop logic below this extraction is embedded
verbatim. -/
structure ListingCandidate where
  url : String
  idMatch : Option String
  titleText : String
  descText : String
  budgetText : String
  skills : List String
  bidsCount : ℕ
  clientRating : ℚ
  timePosted : String
deriving DecidableEq

/-- Record pushed for one candidate (src/scraper.ts lines 132-144):
synthetic id proj_(index) when the URL regex failed, description truncated
to 500 characters. -/
def buildRawProject (index : ℕ) (c : ListingCandidate) : RawProject :=
  { id := c.idMatch.getD ("proj_" ++ toString index)
    title := c.titleText
    description := c.descText.take 500
    budgetText := c.budgetText
    skills := c.skills
    bidsCount := c.bidsCount
    clientRating := c.clientRating
    timePosted := c.timePosted
    url := c.url }

/-- The candidate loop of scrapeProjectsFromPage (src/scraper.ts lines
93-148): iterate candidates in DOM order with their index, stop as soon as
the index reaches maxPerPage, and push a record only when the extracted
title is non-empty. -/
def scrapePageLoop (index maxPerPage : ℕ) : List ListingCandidate → List RawProject
  | [] => []
  | c :: rest =>
    if maxPerPage ≤ index then []
    else
      if c.titleText = "" then scrapePageLoop (index + 1) maxPerPage rest
      else buildRawProject index c :: scrapePageLoop (index + 1) maxPerPage rest

/-- scrapeProjectsFromPage (src/scraper.ts lines 71-154) on the extracted
candidate list. -/
def scrapeProjectsFromPage (maxPerPage : ℕ) (cards : List ListingCandidate) : List RawProject :=
  scrapePageLoop 0 maxPerPage cards

/-- Nested client-info record (types.ts lines 24-31). -/
structure ClientInfo where
  location : Option String
  memberSince : Option String
  totalJobs : Option ℚ
  hireRate : Option ℚ
  totalSpent : Option String
  avgHourlyRate : Option String
deriving DecidableEq

/-- Competitor bid record (types.ts lines 33-43). -/
structure CompetitorBid where
  freelancerName : String
  rating : ℚ
  reviews : ℚ
  completionRate : ℚ
  bidAmount : ℚ
  bidCurrency : String
  deliveryDays : ℚ
  isVerified : Bool
  isPreferred : Bool
deriving DecidableEq

/-- Project record (types.ts lines 5-46). -/
structure Project where
  id : String
  title : String
  description : String
  fullDescription : Option String
  budget : Budget
  skills : List String
  bidsCount : ℕ
  averageBid : Option ℚ
  averageBidCurrency : Option String
  clientRating : ℚ
  clientVerified : Bool
  clientInfo : Option ClientInfo
  deliverables : Option (List String)
  competitorBids : Option (List CompetitorBid)
  timePosted : String
  url : String
deriving DecidableEq

/-- convertRawProjects body for one raw project (src/scraper.ts lines
159-205): optional fields are absent in the returned object and
clientVerified is initialised to false. -/
def convertRawProject (raw : RawProject) : Project :=
  { id := raw.id
    title := raw.title
    description := raw.description
    fullDescription := none
    budget := convertRawBudget raw.budgetText
    skills := raw.skills
    bidsCount := raw.bidsCount
    averageBid := none
    averageBidCurrency := none
    clientRating := raw.clientRating
    clientVerified := false
    clientInfo := none
    deliverables := none
    competitorBids := none
    timePosted := raw.timePosted
    url := raw.url }

/-- convertRawProjects (src/scraper.ts lines 159-205). -/
def convertRawProjects (rawProjects : List RawProject) : List Project :=
  rawProjects.map convertRawProject

/-- Loop body of enrichProjectsWithDetails (src/scraper.ts lines 477-501).
The network-and-DOM function getProjectDetails is modelled by the oracle
fetchDetails, indexed by loop position; none models a throw, in which case
the catch block keeps the original project.  Projects at positions at or
beyond maxToEnrich are passed through unchanged.  The fixed delay between
requests has no observable effect on the result and is not modelled. -/
def enrichLoop (fetchDetails : ℕ → Project → Option Project) (maxToEnrich : ℕ) :
    ℕ → List Project → List Project
  | _, [] => []
  | i, p :: rest =>
    (if i < maxToEnrich then
      match fetchDetails i p with
      | some d => d
      | none => p
     else p) :: enrichLoop fetchDetails maxToEnrich (i + 1) rest

/-- enrichProjectsWithDetails (src/scraper.ts lines 468-506). -/
def enrichProjectsWithDetails (fetchDetails : ℕ → Project → Option Project)
    (projects : List Project) (maxToEnrich : ℕ) : List Project :=
  enrichLoop fetchDetails maxToEnrich 0 projects

/-- BidInsight record (src/scraper.ts lines 594-605); the status union is
kept as a string, exactly the values the parser assigns. -/
structure BidInsight where
  projectTitle : String
  projectUrl : String
  timeRemaining : String
  bidRank : ℕ
  totalBids : ℕ
  yourBid : ℚ
  yourBidCurrency : String
  status : String
  clientCountry : String
  clientRating : ℚ
deriving DecidableEq

/-- Result record of analyzeCompetition (src/scraper.ts lines 778-783). -/
structure CompetitionStats where
  avgRank : ℚ
  sealedCount : ℕ
  avgTotalBids : ℚ
  winRate : ℚ
deriving DecidableEq

/-- analyzeCompetition (src/scraper.ts lines 778-798). -/
def analyzeCompetition (insights : List BidInsight) : CompetitionStats :=
  if insights.length = 0 then ⟨0, 0, 0, 0⟩
  else
    let withRank := insights.filter (fun i => 0 < i.bidRank)
    let avgRank : ℚ :=
      if 0 < withRank.length then
        ((withRank.map (fun i => (i.bidRank : ℚ))).sum) / (withRank.length : ℚ)
      else 0
    let sealedCount := (insights.filter (fun i => i.status = "sealed")).length
    let avgTotalBids : ℚ :=
      ((insights.map (fun i => (i.totalBids : ℚ))).sum) / (insights.length : ℚ)
    let winRate : ℚ := (sealedCount : ℚ) / (insights.length : ℚ) * 100
    ⟨(jsRound avgRank : ℚ), sealedCount, (jsRound avgTotalBids : ℚ), winRate⟩

/-- The poor-visibility filter of the improve-bids mode (orchestrator,
src/unnamed/part_003): rows with unknown rank or total are excluded, the
rest kept when the position percentage exceeds 50. -/
def poorBidsFilter (existingBids : List BidInsight) : List BidInsight :=
  existingBids.filter (fun bid =>
    if bid.bidRank = 0 ∨ bid.totalBids = 0 then false
    else 50 < ((bid.bidRank : ℚ) / (bid.totalBids : ℚ)) * 100)

/-- Milestone record of a bid suggestion (types.ts lines 57-60). -/
structure Milestone where
  description : String
  amount : ℚ
deriving DecidableEq

/-- In-place update milestones[milestones.length - 1].amount += diff from
analyzeProject (src/unnamed/part_004 line 255). -/
def addToLastAmount : List Milestone → ℚ → List Milestone
  | [], _ => []
  | [m], d => [{ m with amount := m.amount + d }]
  | m :: m2 :: rest, d => m :: addToLastAmount (m2 :: rest) d

/-- Post-processing of the parsed LLM response in analyzeProject
(src/unnamed/part_004 lines 236-264): substitute the minimum budget for a
falsy bidAmount, clamp into the budget range, then either repair provided
milestones by pushing any discrepancy into the last one, or synthesize the
three default milestones.  Returns the final bid amount and milestone
list; the prompt construction, JSON parsing and USD conversion around this
logic carry no further arithmetic on these two values. -/
def clampBid (budgetMin budgetMax : ℚ) (parsedBidAmount : Option ℚ) : ℚ :=
  let bid0 : ℚ :=
    match parsedBidAmount with
    | some a => if a = 0 then budgetMin else a
    | none => budgetMin
  let bid1 := if bid0 < budgetMin then budgetMin else bid0
  if budgetMax < bid1 then budgetMax else bid1

/-- Milestone repair or synthesis step of analyzeProject
(src/unnamed/part_004 lines 248-264). -/
def fixMilestones (bid2 : ℚ) (parsedMilestones : List Milestone) : List Milestone :=
    if 0 < parsedMilestones.length then
      let milestoneTotal := (parsedMilestones.map Milestone.amount).sum
      if milestoneTotal ≠ bid2 then addToLastAmount parsedMilestones (bid2 - milestoneTotal)
      else parsedMilestones
    else
      [⟨"Initial setup and requirements", (jsRound (bid2 * (35/100)) : ℚ)⟩,
       ⟨"Development and implementation", (jsRound (bid2 * (45/100)) : ℚ)⟩,
       ⟨"Testing and final delivery",
         bid2 - (jsRound (bid2 * (35/100)) : ℚ) - (jsRound (bid2 * (45/100)) : ℚ)⟩]

/-- Post-processing of the parsed LLM response in analyzeProject, the
composition of the clamp and the milestone step on the clamped amount. -/
def analyzeProjectPost (budgetMin budgetMax : ℚ) (parsedBidAmount : Option ℚ)
    (parsedMilestones : List Milestone) : ℚ × List Milestone :=
  let bid2 := clampBid budgetMin budgetMax parsedBidAmount
  (bid2, fixMilestones bid2 parsedMilestones)

/-- Bid suggestion record (types.ts lines 52-61). -/
structure BidSuggestion where
  amount : ℚ
  currency : String
  amountUSD : ℚ
  period : ℚ
  milestones : Option (List Milestone)
deriving DecidableEq

/-- ProjectScore record (types.ts lines 48-62). -/
structure ProjectScore where
  project : Project
  score : ℚ
  reasoning : String
  bidSuggestion : BidSuggestion
deriving DecidableEq

/-- filterByScore (src/unnamed/part_004 lines 280-282). -/
def filterByScore (scores : List ProjectScore) (minScore : ℚ) : List ProjectScore :=
  scores.filter (fun s => minScore ≤ s.score)

/-- Position percentage computed by suggestBidEdit
(src/unnamed/part_004 line 305): rank over total times 100, or 100 when
totalBids is 0. -/
def positionPercent (bidRank totalBids : ℕ) : ℚ :=
  if 0 < totalBids then ((bidRank : ℚ) / (totalBids : ℚ)) * 100 else 100

/-- BidEditSuggestion record (src/unnamed/part_004 lines 288-294); the
reason field is display text built with floating-point formatting and is
not modelled. -/
structure BidEditSuggestion where
  originalAmount : ℚ
  suggestedAmount : ℚ
  currency : String
  strategy : String
deriving DecidableEq

/-- Deterministic rule table of suggestBidEdit, used both on the
no-credential path (src/unnamed/part_004 lines 308-317) and as the
identical fallback after an LLM failure (lines 360-367). -/
def suggestBidEditFallback (currentBid : ℚ) (currency : String)
    (bidRank totalBids : ℕ) : BidEditSuggestion :=
  let pp := positionPercent bidRank totalBids
  let reduction : ℚ := if 75 < pp then 15/100 else if 50 < pp then 10/100 else 5/100
  { originalAmount := currentBid
    suggestedAmount := (jsRound (currentBid * (1 - reduction)) : ℚ)
    currency := currency
    strategy :=
      if 15/100 ≤ reduction then "aggressive"
      else if 10/100 ≤ reduction then "moderate"
      else "conservative" }

/-- Per-input rescale of editBid (src/bidder.ts lines 346-347): round the
value scaled by the adjustment ratio, then raise to 1 if below. -/
def rescaleStep (adjustmentRatio v : ℚ) : ℚ :=
  let nv := (jsRound (v * adjustmentRatio) : ℚ)
  if nv < 1 then 1 else nv

/-- Milestone update of editBid in live mode
(src/bidder.ts lines 327-376), on the numeric values read from the
milestone amount inputs.  Inputs with a non-positive parsed value (the
guard also excludes NaN, which behaves the same way) are neither updated
nor collected into newValues.  If the collected values exist and their sum
differs from the new bid amount, the difference is added to the LAST input
on screen, but only when the adjusted value stays at least 1; otherwise
nothing further happens and the sum is left unequal. -/
def rescaleMilestones (milestoneValues : List ℚ) (newAmount originalAmount : ℚ) : List ℚ :=
  let adjustmentRatio := newAmount / originalAmount
  let updated := milestoneValues.map (fun v => if 0 < v then rescaleStep adjustmentRatio v else v)
  let newValues := (milestoneValues.filter (fun v => 0 < v)).map (rescaleStep adjustmentRatio)
  let totalNewMilestones := newValues.sum
  if 0 < newValues.length ∧ totalNewMilestones ≠ newAmount then
    let diff := newAmount - totalNewMilestones
    let lastValue := newValues.getLast?.getD 0 + diff
    if 1 ≤ lastValue then updated.dropLast ++ [lastValue] else updated
  else updated

/-- Minimal sample project used to instantiate theorems about list-level
plumbing; field values are arbitrary but concrete. -/
def sampleProject (n : ℕ) : Project :=
  { id := "p" ++ toString n
    title := "Project " ++ toString n
    description := "desc"
    fullDescription := none
    budget := { min := some 100, max := some 500, currency := "USD"
                minUSD := some 100, maxUSD := some 500, isHourly := false }
    skills := ["Magento"]
    bidsCount := 3
    averageBid := none
    averageBidCurrency := none
    clientRating := 4
    clientVerified := false
    clientInfo := none
    deliverables := none
    competitorBids := none
    timePosted := "2 days ago"
    url := "https://example.com/projects/web/" ++ toString n }

/-- Enrichment oracle for the sample run: the project at loop index 2
throws, every other fetch succeeds and fills the full description. -/
def sampleFetch (i : ℕ) (p : Project) : Option Project :=
  if i = 2 then none else some { p with fullDescription := some "full" }

/-- Listing candidate with an empty extracted title. -/
def cardNoTitle : ListingCandidate :=
  { url := "https://example.com/projects/web/a", idMatch := some "a"
    titleText := "", descText := "", budgetText := "", skills := []
    bidsCount := 0, clientRating := 0, timePosted := "" }

/-- Listing candidate with a non-empty extracted title. -/
def cardTitled : ListingCandidate :=
  { url := "https://example.com/projects/web/b", idMatch := some "b"
    titleText := "Build a store", descText := "d", budgetText := "", skills := []
    bidsCount := 1, clientRating := 5, timePosted := "1 hour ago" }

/-- Bid insight with known rank 1 of 1, active. -/
def insightOneOfOne : BidInsight :=
  { projectTitle := "A", projectUrl := "u1", timeRemaining := "3 days"
    bidRank := 1, totalBids := 1, yourBid := 100, yourBidCurrency := "USD"
    status := "active", clientCountry := "US", clientRating := 5 }

/-- Bid insight with known rank 1 of 2, active. -/
def insightOneOfTwo : BidInsight :=
  { projectTitle := "B", projectUrl := "u2", timeRemaining := "5 days"
    bidRank := 1, totalBids := 2, yourBid := 200, yourBidCurrency := "USD"
    status := "active", clientCountry := "GB", clientRating := 4 }

theorem addToLastAmount_sum (d : ℚ) :
    ∀ l : List Milestone, l ≠ [] →
      ((addToLastAmount l d).map Milestone.amount).sum = (l.map Milestone.amount).sum + d
  | [], h => absurd rfl h
  | [m], _ => by simp [addToLastAmount]
  | m :: m2 :: rest, _ => by
      have ih := addToLastAmount_sum d (m2 :: rest) (by simp)
      simp only [addToLastAmount, List.map_cons, List.sum_cons, ih]
      ring

theorem addToLastAmount_length (d : ℚ) :
    ∀ l : List Milestone, (addToLastAmount l d).length = l.length
  | [] => rfl
  | [_] => rfl
  | m :: m2 :: rest => by
      simp only [addToLastAmount, List.length_cons, addToLastAmount_length d (m2 :: rest)]

theorem addToLastAmount_dropLast (d : ℚ) :
    ∀ l : List Milestone, (addToLastAmount l d).dropLast = l.dropLast
  | [] => rfl
  | [_] => rfl
  | m :: m2 :: rest => by
      have ih := addToLastAmount_dropLast d (m2 :: rest)
      have hlen := addToLastAmount_length d (m2 :: rest)
      cases hh : addToLastAmount (m2 :: rest) d with
      | nil => rw [hh] at hlen; simp at hlen
      | cons x xs =>
          rw [hh] at ih
          simp only [addToLastAmount, hh, List.dropLast_cons₂, List.cons.injEq, ih]

theorem clampBid_bounds (budgetMin budgetMax : ℚ) (pb : Option ℚ) (h : budgetMin ≤ budgetMax) :
    budgetMin ≤ clampBid budgetMin budgetMax pb ∧ clampBid budgetMin budgetMax pb ≤ budgetMax := by
  unfold clampBid
  cases pb with
  | none => simp only; split_ifs with h1 h2 <;> constructor <;> linarith
  | some a => simp only; split_ifs with h1 h2 h3 h4 h5 h6 <;> constructor <;> linarith

theorem fixMilestones_sum (bid2 : ℚ) (pm : List Milestone) :
    ((fixMilestones bid2 pm).map Milestone.amount).sum = bid2 := by
  unfold fixMilestones
  cases pm with
  | nil => simp
  | cons m rest =>
      simp only [List.length_cons, Nat.succ_pos, if_pos]
      by_cases hs : ((m :: rest).map Milestone.amount).sum = bid2
      · rw [if_neg (by simpa using hs)]
        simpa using hs
      · rw [if_pos (by simpa using hs)]
        rw [addToLastAmount_sum _ _ (by simp)]
        ring

/-- C1 (amended): on the normal path of the recommendation engine, the sum
of the produced milestone amounts UNCONDITIONALLY equals the suggested bid
amount exactly (LLM-provided milestones are repaired in the last entry
only, and when none are provided exactly the three default milestones with
the two rounded shares and the exact remainder are synthesized), also in
the reachable min > max case; the bound
budget.min <= amount <= budget.max additionally holds whenever
budget.min <= budget.max. -/
theorem analyzeProject_milestone_sum_and_budget (bmin bmax : ℚ) (pb : Option ℚ)
    (pm : List Milestone) :
    (((analyzeProjectPost bmin bmax pb pm).2).map Milestone.amount).sum
        = (analyzeProjectPost bmin bmax pb pm).1 ∧
    (bmin ≤ bmax →
      bmin ≤ (analyzeProjectPost bmin bmax pb pm).1 ∧
      (analyzeProjectPost bmin bmax pb pm).1 ≤ bmax) ∧
    (pm = [] →
      (analyzeProjectPost bmin bmax pb pm).2 =
        [⟨"Initial setup and requirements",
            (jsRound ((analyzeProjectPost bmin bmax pb pm).1 * (35/100)) : ℚ)⟩,
         ⟨"Development and implementation",
            (jsRound ((analyzeProjectPost bmin bmax pb pm).1 * (45/100)) : ℚ)⟩,
         ⟨"Testing and final delivery",
            (analyzeProjectPost bmin bmax pb pm).1
              - (jsRound ((analyzeProjectPost bmin bmax pb pm).1 * (35/100)) : ℚ)
              - (jsRound ((analyzeProjectPost bmin bmax pb pm).1 * (45/100)) : ℚ)⟩]) ∧
    (pm ≠ [] →
      (analyzeProjectPost bmin bmax pb pm).2.length = pm.length ∧
      (analyzeProjectPost bmin bmax pb pm).2.dropLast = pm.dropLast) := by
  have hfst : (analyzeProjectPost bmin bmax pb pm).1 = clampBid bmin bmax pb := rfl
  have hsnd : (analyzeProjectPost bmin bmax pb pm).2
      = fixMilestones (clampBid bmin bmax pb) pm := rfl
  refine ⟨?_, ?_, ?_, ?_⟩
  · rw [hfst, hsnd]; exact fixMilestones_sum _ pm
  · intro h
    rw [hfst]
    exact clampBid_bounds bmin bmax pb h
  · intro hpm
    subst hpm
    rw [hfst, hsnd]
    simp [fixMilestones]
  · intro hpm
    rw [hsnd]
    unfold fixMilestones
    rw [if_pos (by cases pm with | nil => exact absurd rfl hpm | cons a l => simp)]
    by_cases hs : ((pm.map Milestone.amount).sum : ℚ) = clampBid bmin bmax pb
    · rw [if_neg (by simpa using hs)]
      exact ⟨rfl, rfl⟩
    · rw [if_pos (by simpa using hs)]
      exact ⟨addToLastAmount_length _ pm, addToLastAmount_dropLast _ pm⟩

/-- C1 counterexample: the budget-range half of the claim fails as stated.
A project whose budget text lists the larger bound first (see the C3
counterexample) reaches analyzeProject with budget.min = 900 and
budget.max = 100; the clamp then returns 100, and 900 <= 100 is false,
while such a budget is produced by convertRawProjects from the listing
text "$900 - $100 USD". -/
theorem analyzeProject_budget_bound_cex :
    (analyzeProjectPost 900 100 (some 500) []).1 = 100 ∧
    ¬ ((900 : ℚ) ≤ (analyzeProjectPost 900 100 (some 500) []).1) ∧
    (convertRawBudget ("$900 - $100 USD")).min = some 900 ∧
    (convertRawBudget ("$900 - $100 USD")).max = some 100 := by
  have h1 : (analyzeProjectPost 900 100 (some 500) []).1 = 100 := by
    show clampBid 900 100 (some 500) = 100
    unfold clampBid
    norm_num
  have hm : findBudgetMatch ("$900 - $100 USD".data) =
      some ⟨some '$', "900".data, some '$', "100".data, some ("USD".data)⟩ := by decide
  have hp1 : jsParseInt ['9', '0', '0'] = some 900 := by decide
  have hp2 : jsParseInt ['1', '0', '0'] = some 100 := by decide
  refine ⟨h1, by rw [h1]; norm_num, ?_, ?_⟩ <;> simp [convertRawBudget, hm, hp1, hp2]

/-- C1 witness: concrete run with budget 100-500, parsed bid 300 and
parsed milestones 100/150/40; the discrepancy 10 is pushed into the last
milestone and the final amounts are 100/150/50 summing to 300. -/
theorem analyzeProject_milestone_sum_witness :
    (((analyzeProjectPost 100 500 (some 300)
        [⟨"a", 100⟩, ⟨"b", 150⟩, ⟨"c", 40⟩]).2).map Milestone.amount).sum
      = (analyzeProjectPost 100 500 (some 300) [⟨"a", 100⟩, ⟨"b", 150⟩, ⟨"c", 40⟩]).1 ∧
    (100 : ℚ) ≤ (analyzeProjectPost 100 500 (some 300) [⟨"a", 100⟩, ⟨"b", 150⟩, ⟨"c", 40⟩]).1 ∧
    (analyzeProjectPost 100 500 (some 300) [⟨"a", 100⟩, ⟨"b", 150⟩, ⟨"c", 40⟩]).1 ≤ 500 ∧
    (((analyzeProjectPost 900 100 (some 500) []).2).map Milestone.amount).sum
      = (analyzeProjectPost 900 100 (some 500) []).1 := by
  have h := analyzeProject_milestone_sum_and_budget 100 500 (some 300)
    [⟨"a", 100⟩, ⟨"b", 150⟩, ⟨"c", 40⟩]
  have hb := h.2.1 (by norm_num)
  have hdesc := analyzeProject_milestone_sum_and_budget 900 100 (some 500) []
  exact ⟨h.1, hb.1, hb.2, hdesc.1⟩

theorem suggestBidEditFallback_cases (currentBid : ℚ) (currency : String)
    (bidRank totalBids : ℕ) :
    (75 < positionPercent bidRank totalBids →
      (suggestBidEditFallback currentBid currency bidRank totalBids).strategy = "aggressive" ∧
      (suggestBidEditFallback currentBid currency bidRank totalBids).suggestedAmount
        = (jsRound (currentBid * (85/100)) : ℚ)) ∧
    (50 < positionPercent bidRank totalBids → positionPercent bidRank totalBids ≤ 75 →
      (suggestBidEditFallback currentBid currency bidRank totalBids).strategy = "moderate" ∧
      (suggestBidEditFallback currentBid currency bidRank totalBids).suggestedAmount
        = (jsRound (currentBid * (90/100)) : ℚ)) ∧
    (positionPercent bidRank totalBids ≤ 50 →
      (suggestBidEditFallback currentBid currency bidRank totalBids).strategy = "conservative" ∧
      (suggestBidEditFallback currentBid currency bidRank totalBids).suggestedAmount
        = (jsRound (currentBid * (95/100)) : ℚ)) := by
  refine ⟨?_, ?_, ?_⟩
  · intro h75
    simp only [suggestBidEditFallback]
    rw [if_pos h75]
    norm_num
  · intro h50 h75
    simp only [suggestBidEditFallback]
    rw [if_neg (not_lt.mpr h75), if_pos h50]
    norm_num
  · intro h50
    simp only [suggestBidEditFallback]
    rw [if_neg (not_lt.mpr (le_trans h50 (by norm_num))), if_neg (not_lt.mpr h50)]
    norm_num

/-- C2: with no LLM credential configured, suggestBidEdit follows the
deterministic rule table on positionPercent = rank / total * 100
(reduction 15 percent above 75, 10 percent above 50, else 5 percent), the
suggested amount is Math.round of currentBid times one minus the
reduction, and the strategy label follows the reduction size. -/
theorem suggestBidEdit_rule_table (currentBid : ℚ) (currency : String)
    (bidRank totalBids : ℕ) :
    (0 < totalBids → positionPercent bidRank totalBids
        = ((bidRank : ℚ) / (totalBids : ℚ)) * 100) ∧
    (75 < positionPercent bidRank totalBids →
      (suggestBidEditFallback currentBid currency bidRank totalBids).strategy = "aggressive" ∧
      (suggestBidEditFallback currentBid currency bidRank totalBids).suggestedAmount
        = (jsRound (currentBid * (85/100)) : ℚ)) ∧
    (50 < positionPercent bidRank totalBids → positionPercent bidRank totalBids ≤ 75 →
      (suggestBidEditFallback currentBid currency bidRank totalBids).strategy = "moderate" ∧
      (suggestBidEditFallback currentBid currency bidRank totalBids).suggestedAmount
        = (jsRound (currentBid * (90/100)) : ℚ)) ∧
    (positionPercent bidRank totalBids ≤ 50 →
      (suggestBidEditFallback currentBid currency bidRank totalBids).strategy = "conservative" ∧
      (suggestBidEditFallback currentBid currency bidRank totalBids).suggestedAmount
        = (jsRound (currentBid * (95/100)) : ℚ)) := by
  have h := suggestBidEditFallback_cases currentBid currency bidRank totalBids
  exact ⟨fun ht => by rw [positionPercent, if_pos ht], h.1, h.2.1, h.2.2⟩

/-- C2 witness: rank 80 of 100 gives position 80 percent, so the strategy
is aggressive and a current bid of 200 is reduced to
Math.round(200 * 0.85) = 170. -/
theorem suggestBidEdit_rule_table_witness :
    (suggestBidEditFallback 200 "USD" 80 100).strategy = "aggressive" ∧
    (suggestBidEditFallback 200 "USD" 80 100).suggestedAmount = 170 := by
  have h := (suggestBidEdit_rule_table 200 "USD" 80 100).2.1
    (by norm_num [positionPercent])
  refine ⟨h.1, ?_⟩
  rw [h.2]
  norm_num [jsRound]

/-- C10: when totalBids = 0 the deterministic path of suggestBidEdit sets
positionPercent to 100, hence always applies the worst-case treatment
(15 percent reduction, strategy aggressive, Math.round of 0.85 times the
current bid), whereas the edit-trigger filter of the improve-bids mode
excludes rows with totalBids = 0 (and rank 0) entirely. -/
theorem suggestBidEdit_zero_total (currentBid : ℚ) (currency : String)
    (bidRank : ℕ) (existingBids : List BidInsight) :
    positionPercent bidRank 0 = 100 ∧
    (suggestBidEditFallback currentBid currency bidRank 0).strategy = "aggressive" ∧
    (suggestBidEditFallback currentBid currency bidRank 0).suggestedAmount
      = (jsRound (currentBid * (85/100)) : ℚ) ∧
    (poorBidsFilter existingBids).countP (fun b => b.totalBids == 0) = 0 := by
  have hpp : positionPercent bidRank 0 = 100 := by
    rw [positionPercent, if_neg (by norm_num)]
  have h := (suggestBidEditFallback_cases currentBid currency bidRank 0).1
    (by rw [hpp]; norm_num)
  refine ⟨hpp, h.1, h.2, ?_⟩
  rw [List.countP_eq_zero]
  intro b hb
  rw [poorBidsFilter, List.mem_filter] at hb
  intro hbz
  have h0 : b.totalBids = 0 := by simpa using hbz
  rw [if_pos (Or.inr h0)] at hb
  exact absurd hb.2 (by simp)

/-- C9: filterByScore is the pure stable filter keeping exactly the scores
at or above the threshold, and it is idempotent. -/
theorem filterByScore_pure_and_idempotent (scores : List ProjectScore) (minScore : ℚ) :
    (filterByScore scores minScore).Sublist scores ∧
    (∀ s, s ∈ filterByScore scores minScore ↔ s ∈ scores ∧ minScore ≤ s.score) ∧
    filterByScore (filterByScore scores minScore) minScore = filterByScore scores minScore := by
  refine ⟨List.filter_sublist scores, ?_, ?_⟩
  · intro s
    simp [filterByScore, List.mem_filter]
  · unfold filterByScore
    rw [List.filter_filter]
    simp

/-- C8: parseCurrencyAmount captures an optional currency symbol, a
comma-grouped numeral with optional decimals and an optional trailing
code, strips the thousands separators before conversion — on
"₹25,000.00 INR" it returns amount 25000 and currency "INR" — and on any
input the regex does not match it returns amount 0 and currency "USD". -/
theorem parseCurrencyAmount_spec (text : String) :
    parseCurrencyAmount ("₹25,000.00 INR") = ⟨some 25000, "INR"⟩ ∧
    (findCurrencyMatch text.data = none → parseCurrencyAmount text = ⟨some 0, "USD"⟩) := by
  constructor
  · have hm : findCurrencyMatch ("₹25,000.00 INR".data) =
        some ⟨some '₹', "25,000.00".data, some ("INR".data)⟩ := by decide
    have hf : jsParseFloatParts ['2', '5', '0', '0', '0', '.', '0', '0']
        = some (25000, 0, 2) := by decide
    have hu : jsToUpper (String.mk ("INR".data)) = "INR" := by decide
    simp [parseCurrencyAmount, hm, jsParseFloat, hf, hu]
  · intro hnone
    rw [parseCurrencyAmount, hnone]

/-- C8 witness: the string "garbage" has no match of the currency regex,
so the parser returns the degraded default. -/
theorem parseCurrencyAmount_spec_witness :
    parseCurrencyAmount ("garbage") = ⟨some 0, "USD"⟩ :=
  (parseCurrencyAmount_spec ("garbage")).2 (by decide)

/-- C5 (amended): analyzeCompetition returns all zeros on the empty list;
on a non-empty list sealedCount counts the entries with status "sealed",
winRate is sealedCount / totalInsights * 100 exactly, avgTotalBids is the
ROUNDED mean of totalBids over all entries (rank-zero entries included),
and avgRank is the rounded mean of bidRank over the entries with positive
rank, or 0 when there are none. -/
theorem analyzeCompetition_formulas (insights : List BidInsight) :
    (insights = [] → analyzeCompetition insights = ⟨0, 0, 0, 0⟩) ∧
    (insights ≠ [] →
      (analyzeCompetition insights).sealedCount
          = insights.countP (fun i => i.status == "sealed") ∧
      (analyzeCompetition insights).winRate
          = (insights.countP (fun i => i.status == "sealed") : ℚ) / (insights.length : ℚ) * 100 ∧
      (analyzeCompetition insights).avgTotalBids
          = (jsRound (((insights.map (fun i => (i.totalBids : ℚ))).sum) / (insights.length : ℚ)) : ℚ) ∧
      (insights.filter (fun i => 0 < i.bidRank) = [] →
        (analyzeCompetition insights).avgRank = 0) ∧
      (insights.filter (fun i => 0 < i.bidRank) ≠ [] →
        (analyzeCompetition insights).avgRank
          = (jsRound ((((insights.filter (fun i => 0 < i.bidRank)).map
                (fun i => (i.bidRank : ℚ))).sum)
              / (((insights.filter (fun i => 0 < i.bidRank)).length : ℚ))) : ℚ))) := by
  constructor
  · intro h
    subst h
    rfl
  · intro hne
    have hlen : insights.length ≠ 0 := by simpa using hne
    have hcount : insights.countP (fun i => i.status == "sealed")
        = (insights.filter (fun i => i.status = "sealed")).length := by
      rw [List.countP_eq_length_filter]
      congr 1
    refine ⟨?_, ?_, ?_, ?_, ?_⟩
    · rw [analyzeCompetition, if_neg hlen, hcount]
    · rw [analyzeCompetition, if_neg hlen, hcount]
    · rw [analyzeCompetition, if_neg hlen]
    · intro hfil
      rw [analyzeCompetition, if_neg hlen]
      simp only [hfil, List.length_nil]
      norm_num [jsRound]
    · intro hfil
      have hflen : 0 < (insights.filter (fun i => 0 < i.bidRank)).length := by
        cases hl : insights.filter (fun i => 0 < i.bidRank) with
        | nil => exact absurd hl hfil
        | cons a l => simp
      rw [analyzeCompetition, if_neg hlen]
      simp only [if_pos hflen]

/-- C5 counterexample: two insights with total bids 1 and 2 have mean
total-bids 3/2, but analyzeCompetition returns the rounded value 2, so
avgTotalBids is not the exact mean the claim states. -/
theorem analyzeCompetition_avgTotalBids_rounded_cex :
    (analyzeCompetition [insightOneOfOne, insightOneOfTwo]).avgTotalBids = 2 ∧
    ((insightOneOfOne.totalBids : ℚ) + (insightOneOfTwo.totalBids : ℚ)) / 2 = 3/2 ∧
    (2 : ℚ) ≠ 3/2 := by
  refine ⟨?_, by norm_num [insightOneOfOne, insightOneOfTwo], by norm_num⟩
  norm_num [analyzeCompetition, insightOneOfOne, insightOneOfTwo, jsRound]

/-- C5 witness: the empty-list clause evaluated at [], and the non-empty
clauses evaluated at a singleton active insight with rank 1 of 1. -/
theorem analyzeCompetition_formulas_witness :
    analyzeCompetition [] = ⟨0, 0, 0, 0⟩ ∧
    (analyzeCompetition [insightOneOfOne]).sealedCount = 0 := by
  constructor
  · exact (analyzeCompetition_formulas []).1 rfl
  · have h := ((analyzeCompetition_formulas [insightOneOfOne]).2 (by simp)).1
    rw [h]
    decide

theorem scrapePageLoop_length (maxPerPage : ℕ) :
    ∀ (cards : List ListingCandidate) (index : ℕ),
      (scrapePageLoop index maxPerPage cards).length
        = ((cards.take (maxPerPage - index)).countP (fun c => c.titleText != "")) := by
  intro cards
  induction cards with
  | nil => intro index; simp [scrapePageLoop]
  | cons c rest ih =>
      intro index
      rw [scrapePageLoop]
      by_cases hidx : maxPerPage ≤ index
      · rw [if_pos hidx]
        have : maxPerPage - index = 0 := Nat.sub_eq_zero_of_le hidx
        simp [this]
      · rw [if_neg hidx]
        have hsub : maxPerPage - index = (maxPerPage - (index + 1)) + 1 := by omega
        rw [hsub, List.take_succ_cons, List.countP_cons]
        by_cases ht : c.titleText = ""
        · rw [if_pos ht, ih (index + 1)]
          simp [ht]
        · rw [if_neg ht, List.length_cons, ih (index + 1)]
          have : (c.titleText != "") = true := by simpa using ht
          simp [this]

theorem scrapePageLoop_titles (maxPerPage : ℕ) :
    ∀ (cards : List ListingCandidate) (index : ℕ),
      ∀ r ∈ scrapePageLoop index maxPerPage cards, r.title ≠ "" := by
  intro cards
  induction cards with
  | nil => intro index r hr; simp [scrapePageLoop] at hr
  | cons c rest ih =>
      intro index r hr
      rw [scrapePageLoop] at hr
      by_cases hidx : maxPerPage ≤ index
      · rw [if_pos hidx] at hr; simp at hr
      · rw [if_neg hidx] at hr
        by_cases ht : c.titleText = ""
        · rw [if_pos ht] at hr
          exact ih (index + 1) r hr
        · rw [if_neg ht] at hr
          rcases List.mem_cons.mp hr with h | h
          · subst h; exact ht
          · exact ih (index + 1) r h

/-- C4 (amended): the listing parser silently discards a candidate whose
extracted title is empty — the output never contains an empty title — but
the candidate still consumes one of the first N loop slots: the loop
inspects only the first N candidates in DOM order, so the number of
returned records equals the number of titled candidates among the first N,
and titled candidates beyond that window are never returned even when
earlier candidates were discarded. -/
theorem scrapeProjectsFromPage_window (maxPerPage : ℕ) (cards : List ListingCandidate) :
    (scrapeProjectsFromPage maxPerPage cards).length
        = ((cards.take maxPerPage).countP (fun c => c.titleText != "")) ∧
    (∀ r ∈ scrapeProjectsFromPage maxPerPage cards, r.title ≠ "") ∧
    (scrapeProjectsFromPage maxPerPage cards).length ≤ maxPerPage := by
  have hlen := scrapePageLoop_length maxPerPage cards 0
  rw [Nat.sub_zero] at hlen
  refine ⟨hlen, scrapePageLoop_titles maxPerPage cards 0, ?_⟩
  rw [scrapeProjectsFromPage, hlen]
  calc ((cards.take maxPerPage).countP (fun c => c.titleText != ""))
      ≤ (cards.take maxPerPage).length := List.countP_le_length _
    _ ≤ maxPerPage := by rw [List.length_take]; omega

/-- C4 counterexample: with N = 1 and candidates [untitled, titled], the
untitled candidate occupies the single slot, so the parser returns nothing
although a titled candidate was available later on the page — the discard
does count against N, contrary to the claim. -/
theorem scrapeProjectsFromPage_untitled_consumes_slot :
    scrapeProjectsFromPage 1 [cardNoTitle, cardTitled] = [] ∧
    [cardNoTitle, cardTitled].countP (fun c => c.titleText != "") = 1 ∧
    (scrapeProjectsFromPage 1 [cardNoTitle, cardTitled]).length
      ≠ min 1 ([cardNoTitle, cardTitled].countP (fun c => c.titleText != "")) := by
  refine ⟨by decide, by decide, by decide⟩

/-- C4 witness: the window statement evaluated at the concrete two-card
page with N = 1. -/
theorem scrapeProjectsFromPage_window_witness :
    (scrapeProjectsFromPage 1 [cardNoTitle, cardTitled]).length
        = (([cardNoTitle, cardTitled].take 1).countP (fun c => c.titleText != "")) ∧
    (scrapeProjectsFromPage 1 [cardNoTitle, cardTitled]).length ≤ 1 := by
  have h := scrapeProjectsFromPage_window 1 [cardNoTitle, cardTitled]
  exact ⟨h.1, h.2.2⟩

theorem enrichLoop_length (fetchDetails : ℕ → Project → Option Project) (maxToEnrich : ℕ) :
    ∀ (projects : List Project) (index : ℕ),
      (enrichLoop fetchDetails maxToEnrich index projects).length = projects.length := by
  intro projects
  induction projects with
  | nil => intro index; rfl
  | cons p rest ih =>
      intro index
      rw [enrichLoop, List.length_cons, List.length_cons, ih (index + 1)]

theorem enrichLoop_getElem (fetchDetails : ℕ → Project → Option Project) (maxToEnrich : ℕ) :
    ∀ (projects : List Project) (index j : ℕ),
      (enrichLoop fetchDetails maxToEnrich index projects)[j]?
        = (projects[j]?).map (fun p =>
            if index + j < maxToEnrich then (fetchDetails (index + j) p).getD p else p) := by
  intro projects
  induction projects with
  | nil => intro index j; simp [enrichLoop]
  | cons p rest ih =>
      intro index j
      cases j with
      | zero =>
          rw [enrichLoop]
          by_cases hi : index < maxToEnrich
          · simp only [List.getElem?_cons_zero, Option.map_some', Nat.add_zero, if_pos hi]
            cases fetchDetails index p <;> rfl
          · simp only [List.getElem?_cons_zero, Option.map_some', Nat.add_zero, if_neg hi]
      | succ k =>
          rw [enrichLoop]
          simp only [List.getElem?_cons_succ]
          rw [ih (index + 1) k]
          have harith : index + 1 + k = index + (k + 1) := by omega
          rw [harith]

/-- C6: enrichProjectsWithDetails preserves the length of its input, every
project at an index at or beyond maxToEnrich passes through unchanged, a
project whose detail fetch throws is kept bit for bit while the loop
continues, and a successful fetch replaces the project with the fetched
enrichment. -/
theorem enrichProjects_pointwise (fetchDetails : ℕ → Project → Option Project)
    (projects : List Project) (maxToEnrich : ℕ) :
    (enrichProjectsWithDetails fetchDetails projects maxToEnrich).length = projects.length ∧
    (∀ i, maxToEnrich ≤ i →
      (enrichProjectsWithDetails fetchDetails projects maxToEnrich)[i]? = projects[i]?) ∧
    (∀ i p, projects[i]? = some p → i < maxToEnrich → fetchDetails i p = none →
      (enrichProjectsWithDetails fetchDetails projects maxToEnrich)[i]? = some p) ∧
    (∀ i p d, projects[i]? = some p → i < maxToEnrich → fetchDetails i p = some d →
      (enrichProjectsWithDetails fetchDetails projects maxToEnrich)[i]? = some d) := by
  have hget := enrichLoop_getElem fetchDetails maxToEnrich projects 0
  refine ⟨enrichLoop_length fetchDetails maxToEnrich projects 0, ?_, ?_, ?_⟩
  · intro i hi
    rw [enrichProjectsWithDetails, hget i]
    have hni : ¬ (i < maxToEnrich) := by omega
    simp [hni]
  · intro i p hp hi hf
    rw [enrichProjectsWithDetails, hget i, hp]
    simp only [Option.map_some', Nat.zero_add, hf, Option.getD_none]
    rw [if_pos hi]
  · intro i p d hp hi hf
    rw [enrichProjectsWithDetails, hget i, hp]
    simp only [Option.map_some', Nat.zero_add, hf, Option.getD_some]
    rw [if_pos hi]

/-- C6 witness: five sample projects enriched with maxToEnrich = 5 where
the fetch at loop index 2 throws; the output has five elements, element 2
is exactly the original project, and element 0 is the fetched enrichment. -/
theorem enrichProjects_pointwise_witness :
    (enrichProjectsWithDetails sampleFetch
        [sampleProject 0, sampleProject 1, sampleProject 2, sampleProject 3, sampleProject 4]
        5).length = 5 ∧
    (enrichProjectsWithDetails sampleFetch
        [sampleProject 0, sampleProject 1, sampleProject 2, sampleProject 3, sampleProject 4]
        5)[2]? = some (sampleProject 2) ∧
    (enrichProjectsWithDetails sampleFetch
        [sampleProject 0, sampleProject 1, sampleProject 2, sampleProject 3, sampleProject 4]
        5)[0]? = some { sampleProject 0 with fullDescription := some "full" } := by
  have h := enrichProjects_pointwise sampleFetch
    [sampleProject 0, sampleProject 1, sampleProject 2, sampleProject 3, sampleProject 4] 5
  refine ⟨h.1, ?_, ?_⟩
  · exact h.2.2.1 2 (sampleProject 2) rfl (by norm_num) (by rw [sampleFetch]; simp)
  · exact h.2.2.2 0 (sampleProject 0) { sampleProject 0 with fullDescription := some "full" }
      rfl (by norm_num) (by rw [sampleFetch]; simp)

/-- Raw project whose budget text lists the larger bound first. -/
def rawDescending : RawProject :=
  { id := "x1", title := "T1", description := "d", budgetText := "$900 - $100 USD"
    skills := [], bidsCount := 0, clientRating := 0, timePosted := "", url := "" }

/-- Raw project with an unparseable budget text. -/
def rawUnparsed : RawProject :=
  { id := "x2", title := "T2", description := "d", budgetText := "Contact for pricing"
    skills := [], bidsCount := 0, clientRating := 0, timePosted := "", url := "" }

/-- C3 (amended): for every raw listing, the converted budget carries the
first and the second numeral of the regex match as min and max in order of
appearance — so min <= max holds exactly when the text lists the smaller
value first, and is not enforced by the conversion — and when the regex
does not match, min = 0, max = 0 and the currency defaults to "USD". -/
theorem convertRawProjects_budget_bounds (raw : RawProject) :
    (convertRawProject raw).budget = convertRawBudget raw.budgetText ∧
    (match findBudgetMatch raw.budgetText.data with
     | some m =>
        (convertRawBudget raw.budgetText).min
            = (jsParseInt (m.num1.filter (fun c => c ≠ ','))).map (fun n : ℕ => (n : ℚ)) ∧
        (convertRawBudget raw.budgetText).max
            = (jsParseInt (m.num2.filter (fun c => c ≠ ','))).map (fun n : ℕ => (n : ℚ)) ∧
        (∀ a b : ℕ, jsParseInt (m.num1.filter (fun c => c ≠ ',')) = some a →
          jsParseInt (m.num2.filter (fun c => c ≠ ',')) = some b → a ≤ b →
          ∃ x y : ℚ, (convertRawBudget raw.budgetText).min = some x ∧
            (convertRawBudget raw.budgetText).max = some y ∧ x ≤ y)
     | none =>
        (convertRawBudget raw.budgetText).min = some 0 ∧
        (convertRawBudget raw.budgetText).max = some 0 ∧
        (convertRawBudget raw.budgetText).currency = "USD") := by
  refine ⟨rfl, ?_⟩
  cases h : findBudgetMatch raw.budgetText.data with
  | none => rw [convertRawBudget, h]; exact ⟨rfl, rfl, rfl⟩
  | some m =>
      refine ⟨?_, ?_, ?_⟩
      · rw [convertRawBudget, h]
      · rw [convertRawBudget, h]
      · intro a b ha hb hab
        refine ⟨(a : ℚ), (b : ℚ), ?_, ?_, by exact_mod_cast hab⟩
        · simp only [convertRawBudget, h, ha, Option.map_some']
        · simp only [convertRawBudget, h, hb, Option.map_some']

/-- C3 counterexample: the listing conversion parses the budget text
"$900 - $100 USD" successfully into min = 900 and max = 100, so
min <= max fails although both bounds parsed. -/
theorem convertRawProjects_budget_bounds_cex :
    ((convertRawProjects [rawDescending]).map
        (fun p => (p.budget.min, p.budget.max)))
      = [(some (900 : ℚ), some (100 : ℚ))] ∧
    ¬ ((900 : ℚ) ≤ 100) := by
  have hm : findBudgetMatch ("$900 - $100 USD".data) =
      some ⟨some '$', "900".data, some '$', "100".data, some ("USD".data)⟩ := by decide
  have hp1 : jsParseInt ['9', '0', '0'] = some 900 := by decide
  have hp2 : jsParseInt ['1', '0', '0'] = some 100 := by decide
  constructor
  · simp [convertRawProjects, convertRawProject, rawDescending, convertRawBudget, hm, hp1, hp2]
  · norm_num

/-- C3 witness: the no-match clause of the theorem evaluated at the raw
listing with the unparseable budget text. -/
theorem convertRawProjects_budget_bounds_witness :
    (convertRawBudget rawUnparsed.budgetText).min = some 0 ∧
    (convertRawBudget rawUnparsed.budgetText).max = some 0 ∧
    (convertRawBudget rawUnparsed.budgetText).currency = "USD" := by
  have h := (convertRawProjects_budget_bounds rawUnparsed).2
  rw [show findBudgetMatch rawUnparsed.budgetText.data = none from by decide] at h
  exact h

theorem sum_dropLast_add_getLast (l : List ℚ) (h : l ≠ []) :
    l.dropLast.sum + l.getLast?.getD 0 = l.sum := by
  conv_rhs => rw [← List.dropLast_append_getLast h]
  rw [List.sum_append, List.getLast?_eq_getLast l h]
  simp

/-- C7 (amended): in live-mode editBid with both amounts known and
originalAmount > 0, every positive milestone amount is rescaled to
Math.round of the old value times newAmount / originalAmount with a
minimum of 1; if the rescaled sum differs from newAmount, the difference
is added to the last milestone ONLY when the adjusted value stays at
least 1 — otherwise the adjustment is skipped entirely and the milestone
sum is left different from newAmount (there is no clamp to 1).  The
1000 to 900 scenario with milestones 350/450/200 rescales to 315/405/180
whose sum is already exactly 900. -/
theorem editBid_milestone_rescale (milestoneValues : List ℚ) (newAmount originalAmount : ℚ)
    (rescaled : List ℚ)
    (hpos : ∀ v ∈ milestoneValues, 0 < v)
    (hne : milestoneValues ≠ [])
    (_horig : 0 < originalAmount)
    (hres : rescaled = milestoneValues.map (rescaleStep (newAmount / originalAmount))) :
    (rescaled.sum = newAmount →
      rescaleMilestones milestoneValues newAmount originalAmount = rescaled) ∧
    (rescaled.sum ≠ newAmount →
      1 ≤ rescaled.getLast?.getD 0 + (newAmount - rescaled.sum) →
      rescaleMilestones milestoneValues newAmount originalAmount
          = rescaled.dropLast ++ [rescaled.getLast?.getD 0 + (newAmount - rescaled.sum)] ∧
      (rescaleMilestones milestoneValues newAmount originalAmount).sum = newAmount) ∧
    (rescaled.sum ≠ newAmount →
      rescaled.getLast?.getD 0 + (newAmount - rescaled.sum) < 1 →
      rescaleMilestones milestoneValues newAmount originalAmount = rescaled ∧
      (rescaleMilestones milestoneValues newAmount originalAmount).sum ≠ newAmount) := by
  have hfilter : milestoneValues.filter (fun v => 0 < v) = milestoneValues :=
    List.filter_eq_self.mpr (fun a ha => by simpa using hpos a ha)
  have hupd : milestoneValues.map
      (fun v => if 0 < v then rescaleStep (newAmount / originalAmount) v else v)
      = milestoneValues.map (rescaleStep (newAmount / originalAmount)) :=
    List.map_congr_left (fun a ha => by rw [if_pos (hpos a ha)])
  have hrne : rescaled ≠ [] := by
    rw [hres]; simpa using hne
  have hrlen : 0 < rescaled.length := List.length_pos.mpr hrne
  have hmain : rescaleMilestones milestoneValues newAmount originalAmount
      = if 0 < rescaled.length ∧ rescaled.sum ≠ newAmount then
          (if 1 ≤ rescaled.getLast?.getD 0 + (newAmount - rescaled.sum) then
            rescaled.dropLast ++ [rescaled.getLast?.getD 0 + (newAmount - rescaled.sum)]
          else rescaled)
        else rescaled := by
    simp only [rescaleMilestones, hfilter, hupd, ← hres]
  refine ⟨?_, ?_, ?_⟩
  · intro hsum
    rw [hmain, if_neg (by intro hc; exact hc.2 hsum)]
  · intro hsum hlast
    have heq : rescaleMilestones milestoneValues newAmount originalAmount
        = rescaled.dropLast ++ [rescaled.getLast?.getD 0 + (newAmount - rescaled.sum)] := by
      rw [hmain, if_pos ⟨hrlen, hsum⟩, if_pos hlast]
    refine ⟨heq, ?_⟩
    rw [heq, List.sum_append]
    have hs := sum_dropLast_add_getLast rescaled hrne
    simp only [List.sum_cons, List.sum_nil]
    linarith
  · intro hsum hlast
    have heq : rescaleMilestones milestoneValues newAmount originalAmount = rescaled := by
      rw [hmain, if_pos ⟨hrlen, hsum⟩, if_neg (by linarith)]
    exact ⟨heq, by rw [heq]; exact hsum⟩

/-- C7 counterexample: milestone inputs 1/1/1/200 with originalAmount 100
and newAmount 3 rescale to 1/1/1/6 whose sum 9 differs from 3; the
adjusted last value would be 0, so the code skips the adjustment and keeps
6 — the last milestone is neither corrected nor clamped to 1, and the sum
stays different from the new bid amount. -/
theorem editBid_milestone_rescale_cex :
    rescaleMilestones [1, 1, 1, 200] 3 100 = [1, 1, 1, 6] ∧
    ([1, 1, 1, 6] : List ℚ).sum ≠ 3 ∧
    rescaleMilestones [1, 1, 1, 200] 3 100 ≠ [1, 1, 1, 1] := by
  have h : rescaleMilestones [1, 1, 1, 200] 3 100 = [1, 1, 1, 6] := by
    norm_num [rescaleMilestones, rescaleStep, jsRound]
  refine ⟨h, by norm_num, by rw [h]; norm_num⟩

/-- C7 witness: the scenario of the claim, milestones 350/450/200 with
originalAmount 1000 and newAmount 900, rescales to 315/405/180 with sum
exactly 900. -/
theorem editBid_milestone_rescale_witness :
    rescaleMilestones [350, 450, 200] 900 1000 = [315, 405, 180] ∧
    ([315, 405, 180] : List ℚ).sum = 900 := by
  have hres : ([315, 405, 180] : List ℚ)
      = [350, 450, 200].map (rescaleStep ((900 : ℚ) / 1000)) := by
    norm_num [rescaleStep, jsRound]
  have h := (editBid_milestone_rescale [350, 450, 200] 900 1000 [315, 405, 180]
      (by norm_num) (by simp) (by norm_num) hres).1 (by norm_num)
  exact ⟨h, by norm_num⟩
